import Mathlib

/-!
Verification of the Visual Novel Script Creator utility layer
(`src/streamlit_template/utils.py`).

The embedding models Python values directly: `int` as `Int`, `str` as
`String`, `list` as `List`, `dict` records as structures whose field order
follows the insertion order of the source dictionaries, and
`Optional[str]` as `Option String`.  `datetime.now()` is passed in as an
explicit string parameter.  Python's stable `sorted`/`list.sort` is
modelled by `List.insertionSort`, which is stable for the modelled key
comparisons.  `json.dumps(..., indent=2)` (with its default
`ensure_ascii=True` escaping) is modelled by an executable renderer over a
JSON syntax tree, and `json.loads` on the produced text by an executable
recursive-descent parser.
-/

namespace VN

/-! ### JSON values

A JSON syntax tree sufficient for the data serialized by
`export_script_format`: null, integers, strings, arrays and objects.
Arrays and objects are mutual inductives so that mutual induction over the
tree is available. -/

mutual

inductive JValue : Type where
  | jnull : JValue
  | jint : Int → JValue
  | jstr : String → JValue
  | jarr : JArr → JValue
  | jobj : JObj → JValue

inductive JArr : Type where
  | nil : JArr
  | cons : JValue → JArr → JArr

inductive JObj : Type where
  | nil : JObj
  | cons : String → JValue → JObj → JObj

end

def JArr.ofList : List JValue → JArr
  | [] => .nil
  | v :: t => .cons v (JArr.ofList t)

def JObj.ofList : List (String × JValue) → JObj
  | [] => .nil
  | (k, v) :: t => .cons k v (JObj.ofList t)

def JArr.len : JArr → Nat
  | .nil => 0
  | .cons _ t => JArr.len t + 1

def JObj.find : JObj → String → Option JValue
  | .nil, _ => none
  | .cons k v t, key => if k = key then some v else JObj.find t key

/-- Field lookup in a JSON object (the shape `json.loads` returns for
object literals). -/
def jLookup : JValue → String → Option JValue
  | .jobj o, key => o.find key
  | _, _ => none

/-- Length of a JSON array, if the value is an array. -/
def jLen : JValue → Option Nat
  | .jarr a => some a.len
  | _ => none

/-! ### Rendering: `json.dumps(data, indent=2)`

Works over `List Char`.  With `indent=2` Python emits a newline and a
deeper indentation before every element, `,` as item separator, `: ` as
key separator, and `[]`/`\x7b\x7d` for empty containers.  The default
`ensure_ascii=True` escapes `"` and `\` with a backslash, the common
control characters with the two-character escapes `\n`, `\r`, `\t`, `\b`,
`\f`, and every other character outside `0x20`--`0x7e` as `\uXXXX`
(with a surrogate pair for characters above `0xffff`). -/

/-- Lowercase hexadecimal digit for `d < 16`. -/
def hexDigitChar48 (d : Nat) : Char :=
  if d < 10 then Char.ofNat (48 + d) else Char.ofNat (87 + d)

/-- Four lowercase hex digits of `n < 0x10000`, most significant first. -/
def hex4 (n : Nat) : List Char :=
  [hexDigitChar48 (n / 4096 % 16), hexDigitChar48 (n / 256 % 16),
   hexDigitChar48 (n / 16 % 16), hexDigitChar48 (n % 16)]

/-- A `\uXXXX` escape. -/
def uEsc (n : Nat) : List Char := '\\' :: 'u' :: hex4 n

/-- `json.dumps` escaping of one character (`ensure_ascii=True`). -/
def escChar (c : Char) : List Char :=
  if c = '"' then ['\\', '"']
  else if c = '\\' then ['\\', '\\']
  else if c = '\n' then ['\\', 'n']
  else if c = '\r' then ['\\', 'r']
  else if c = '\t' then ['\\', 't']
  else if c = '\x08' then ['\\', 'b']
  else if c = '\x0c' then ['\\', 'f']
  else if c.toNat < 32 ∨ 126 < c.toNat then
    if c.toNat < 65536 then uEsc c.toNat
    else uEsc (55296 + (c.toNat - 65536) / 1024) ++ uEsc (56320 + (c.toNat - 65536) % 1024)
  else [c]

/-- `json.dumps` escaping of a whole string (without the outer quotes). -/
def escStr (s : String) : List Char := s.data.flatMap escChar

/-- Decimal digits of a natural number, most significant first
(`fuel`-indexed to keep the recursion structural). -/
def natDigitsAux : Nat → Nat → List Char
  | 0, _ => []
  | fuel + 1, n =>
    if n < 10 then [hexDigitChar48 n]
    else natDigitsAux fuel (n / 10) ++ [hexDigitChar48 (n % 10)]

def natDigits (n : Nat) : List Char := natDigitsAux (n + 1) n

/-- Python `repr` of an `int`. -/
def intRender (i : Int) : List Char :=
  if i < 0 then '-' :: natDigits i.natAbs else natDigits i.natAbs

/-- Indentation: `n` spaces. -/
def pad (n : Nat) : List Char := List.replicate n ' '

mutual

/-- `json.dumps(v, indent=2)` at indentation level `ind`. -/
def renderVal : Nat → JValue → List Char
  | _, .jnull => ['n', 'u', 'l', 'l']
  | _, .jint i => intRender i
  | _, .jstr s => '"' :: (escStr s ++ ['"'])
  | _, .jarr .nil => ['[', ']']
  | ind, .jarr (.cons v t) =>
    '[' :: '\n' :: (renderArrItems (ind + 2) (.cons v t) ++ '\n' :: (pad ind ++ [']']))
  | _, .jobj .nil => ['\x7b', '\x7d']
  | ind, .jobj (.cons k v t) =>
    '\x7b' :: '\n' :: (renderObjItems (ind + 2) (.cons k v t) ++ '\n' :: (pad ind ++ ['\x7d']))

def renderArrItems : Nat → JArr → List Char
  | _, .nil => []
  | ind, .cons v .nil => pad ind ++ renderVal ind v
  | ind, .cons v (.cons w t) =>
    pad ind ++ (renderVal ind v ++ ',' :: '\n' :: renderArrItems ind (.cons w t))

def renderObjItems : Nat → JObj → List Char
  | _, .nil => []
  | ind, .cons k v .nil =>
    pad ind ++ ('"' :: (escStr k ++ ['"'])) ++ ':' :: ' ' :: renderVal ind v
  | ind, .cons k v (.cons k2 w t) =>
    pad ind ++ ('"' :: (escStr k ++ ['"'])) ++ ':' :: ' ' :: renderVal ind v
      ++ ',' :: '\n' :: renderObjItems ind (.cons k2 w t)

end

/-- `json.dumps(v, indent=2)` as a string. -/
def jsonDumps2 (v : JValue) : String := String.mk (renderVal 0 v)

/-! ### Parsing: `json.loads` on the subset of JSON the renderer emits

A recursive-descent parser over `List Char`.  `parseVal` and the two item
loops take a fuel argument (any fuel at least the node count of the value
suffices; `parseJson` passes the input length, which the round-trip lemmas
show is enough). -/

def isDig (c : Char) : Bool := decide (48 ≤ c.toNat ∧ c.toNat ≤ 57)

def isWs (c : Char) : Bool := c = ' ' || c = '\n' || c = '\t' || c = '\r'

def skipWs : List Char → List Char
  | [] => []
  | c :: r => if isWs c then skipWs r else c :: r

def hexVal? (c : Char) : Option Nat :=
  if 48 ≤ c.toNat ∧ c.toNat ≤ 57 then some (c.toNat - 48)
  else if 97 ≤ c.toNat ∧ c.toNat ≤ 102 then some (c.toNat - 87)
  else if 65 ≤ c.toNat ∧ c.toNat ≤ 70 then some (c.toNat - 55)
  else none

def shortUnescape (e : Char) : Option Char :=
  if e = '"' then some '"'
  else if e = '\\' then some '\\'
  else if e = '/' then some '/'
  else if e = 'n' then some '\n'
  else if e = 'r' then some '\r'
  else if e = 't' then some '\t'
  else if e = 'b' then some '\x08'
  else if e = 'f' then some '\x0c'
  else none

/-- Scan the body of a string literal (after the opening quote), decoding
escapes, up to and including the closing quote.  Fuel-indexed to keep the
recursion structural; one unit of fuel is spent per decoded character, so
callers pass the input length plus one. -/
def parseStrAux : Nat → List Char → Option (List Char × List Char)
  | 0, _ => none
  | _ + 1, [] => none
  | fuel + 1, c :: r =>
    if c = '"' then some ([], r)
    else if c = '\\' then
      match r with
      | [] => none
      | e :: r2 =>
        if e = 'u' then
          match r2 with
          | a :: b :: c2 :: d :: r3 =>
            match hexVal? a, hexVal? b, hexVal? c2, hexVal? d with
            | some va, some vb, some vc, some vd =>
              let v := va * 4096 + vb * 256 + vc * 16 + vd
              if 55296 ≤ v ∧ v ≤ 56319 then
                match r3 with
                | s1 :: u1 :: e2 :: f2 :: g2 :: h2 :: r4 =>
                  if s1 = '\\' ∧ u1 = 'u' then
                    match hexVal? e2, hexVal? f2, hexVal? g2, hexVal? h2 with
                    | some ve, some vf, some vg, some vh =>
                      let w := ve * 4096 + vf * 256 + vg * 16 + vh
                      if 56320 ≤ w ∧ w ≤ 57343 then
                        (parseStrAux fuel r4).map
                          (fun p => (Char.ofNat (65536 + (v - 55296) * 1024 + (w - 56320)) :: p.1, p.2))
                      else none
                    | _, _, _, _ => none
                  else none
                | _ => none
              else (parseStrAux fuel r3).map (fun p => (Char.ofNat v :: p.1, p.2))
            | _, _, _, _ => none
          | _ => none
        else (shortUnescape e).bind
          (fun ch => (parseStrAux fuel r2).map (fun p => (ch :: p.1, p.2)))
    else (parseStrAux fuel r).map (fun p => (c :: p.1, p.2))

def takeDigits : List Char → List Char × List Char
  | [] => ([], [])
  | c :: r =>
    if isDig c then
      let p := takeDigits r
      (c :: p.1, p.2)
    else ([], c :: r)

def digitsToNat (ds : List Char) : Nat :=
  ds.foldl (fun a c => a * 10 + (c.toNat - 48)) 0

/-- `headIs l c`: the input starts with the token character `c`. -/
def headIs (l : List Char) (c : Char) : Bool :=
  match l with
  | [] => false
  | c2 :: _ => c2 = c

mutual

def parseVal : Nat → List Char → Option (JValue × List Char)
  | 0, _ => none
  | fuel + 1, l =>
    match l with
    | [] => none
    | c :: r =>
      if c = 'n' then
        match r with
        | 'u' :: 'l' :: 'l' :: r2 => some (.jnull, r2)
        | _ => none
      else if c = '"' then
        (parseStrAux (r.length + 1) r).map (fun p => (.jstr (String.mk p.1), p.2))
      else if c = '[' then
        let r2 := skipWs r
        if headIs r2 ']' then some (.jarr .nil, r2.tail)
        else (parseArrItems fuel r2).map (fun p => (.jarr p.1, p.2))
      else if c = '\x7b' then
        let r2 := skipWs r
        if headIs r2 '\x7d' then some (.jobj .nil, r2.tail)
        else (parseObjItems fuel r2).map (fun p => (.jobj p.1, p.2))
      else if c = '-' then
        let p := takeDigits r
        if p.1 = [] then none else some (.jint (-(digitsToNat p.1 : Int)), p.2)
      else if isDig c then
        let p := takeDigits (c :: r)
        some (.jint (digitsToNat p.1 : Int), p.2)
      else none

def parseArrItems : Nat → List Char → Option (JArr × List Char)
  | 0, _ => none
  | fuel + 1, l =>
    (parseVal fuel l).bind (fun p =>
      let r := skipWs p.2
      if headIs r ']' then some (.cons p.1 .nil, r.tail)
      else if headIs r ',' then
        (parseArrItems fuel (skipWs r.tail)).map (fun q => (.cons p.1 q.1, q.2))
      else none)

def parseObjItems : Nat → List Char → Option (JObj × List Char)
  | 0, _ => none
  | fuel + 1, l =>
    if headIs l '"' then
      (parseStrAux (l.tail.length + 1) l.tail).bind (fun pk =>
        let r2 := skipWs pk.2
        if headIs r2 ':' then
          (parseVal fuel (skipWs r2.tail)).bind (fun pv =>
            let r3 := skipWs pv.2
            if headIs r3 '\x7d' then some (.cons (String.mk pk.1) pv.1 .nil, r3.tail)
            else if headIs r3 ',' then
              (parseObjItems fuel (skipWs r3.tail)).map
                (fun q => (.cons (String.mk pk.1) pv.1 q.1, q.2))
            else none)
        else none)
    else none

end

/-- `json.loads` on a complete document (no trailing garbage allowed). -/
def parseJson (s : String) : Option JValue :=
  match parseVal (s.data.length + 1) s.data with
  | some (v, []) => some v
  | _ => none

/-! Node counts, used as fuel lower bounds. -/

mutual

def jsizeV : JValue → Nat
  | .jnull => 1
  | .jint _ => 1
  | .jstr _ => 1
  | .jarr a => jsizeA a + 1
  | .jobj o => jsizeO o + 1

def jsizeA : JArr → Nat
  | .nil => 0
  | .cons v t => jsizeV v + jsizeA t + 1

def jsizeO : JObj → Nat
  | .nil => 0
  | .cons _ v t => jsizeV v + jsizeO t + 1

end

/-- The remaining input may not start with a decimal digit (the follow-set
condition under which a rendered integer parses back unambiguously). -/
def headNotDig : List Char → Bool
  | [] => true
  | c :: _ => !isDig c

/-- What follows one rendered array element: either the closing of the
array or a separator and the remaining rendered elements. -/
def arrTail (ind ind2 : Nat) : JArr → List Char → List Char
  | .nil, rest => '\n' :: (pad ind2 ++ ']' :: rest)
  | .cons w t, rest =>
    ',' :: '\n' :: (renderArrItems ind (.cons w t) ++ '\n' :: (pad ind2 ++ ']' :: rest))

/-- What follows one rendered object member. -/
def objTail (ind ind2 : Nat) : JObj → List Char → List Char
  | .nil, rest => '\n' :: (pad ind2 ++ '\x7d' :: rest)
  | .cons k w t, rest =>
    ',' :: '\n' :: (renderObjItems ind (.cons k w t) ++ '\n' :: (pad ind2 ++ '\x7d' :: rest))

/-! ### The data model (§3 of the source: record factories build these
dictionaries; field order is the dictionary insertion order). -/

structure Character where
  name : String
  role : String
  age : Int
  personality : String
  background : String
  goals : String
  created_at : String
  deriving DecidableEq, Repr

structure StoryArc where
  name : String
  description : String
  start_chapter : Int
  end_chapter : Int
  themes : String
  characters : List String
  created_at : String
  deriving DecidableEq, Repr

structure Milestone where
  name : String
  description : String
  chapter : Int
  type : String
  impact : String
  related_arc : Option String
  created_at : String
  deriving DecidableEq, Repr

structure DialogueScene where
  name : String
  chapter : Int
  characters : List String
  dialogue : String
  branches : List String
  deriving DecidableEq, Repr

/-- The `export_data` dictionary built by `export_script_format`. -/
structure ExportData where
  story_concept : String
  characters : List Character
  story_arcs : List StoryArc
  milestones : List Milestone
  dialogue_scenes : List DialogueScene
  export_date : String
  deriving DecidableEq, Repr

/-! ### Python-semantics helpers -/

/-- Python `max` over a list; callers in the source only apply it to
non-empty lists (the `[]` case mirrors no source behaviour and is never
reached under the guards the source uses). -/
def pyMax : List Int → Int
  | [] => 0
  | x :: xs => xs.foldl max x

/-- Python truthiness of an `Optional[str]`: `None` and `""` are falsy. -/
def truthyStrOpt : Option String → Bool
  | none => false
  | some s => s != ""

/-- Python `needle in hay` on strings (substring containment). -/
def strContains (hay needle : String) : Bool :=
  decide (needle.data <:+: hay.data)

/-- Python key comparison used by `sorted(milestones, key=lambda x: x['chapter'])`. -/
def milestoneLe (a b : Milestone) : Prop := a.chapter ≤ b.chapter

instance : DecidableRel milestoneLe := fun a b => Int.decLe a.chapter b.chapter

instance : IsTotal Milestone milestoneLe := ⟨fun a b => Int.le_total a.chapter b.chapter⟩

instance : IsTrans Milestone milestoneLe := ⟨fun _ _ _ => Int.le_trans⟩

/-- `sorted(milestones, key=lambda x: x['chapter'])`: Python's sort is
stable, as is insertion sort with this comparison. -/
def pySortMilestones (ms : List Milestone) : List Milestone :=
  List.insertionSort milestoneLe ms

/-- `milestone_chapters.sort()` on a list of ints. -/
def pySortInts (l : List Int) : List Int :=
  List.insertionSort (· ≤ ·) l

/-! ### `generate_dialogue_options` -/

def generate_dialogue_options (character_name situation personality_traits : String) :
    List String :=
  let base_options :=
    ["What should we do about " ++ situation ++ "?",
     "I think we need to consider our options here.",
     "This reminds me of something that happened before.",
     "Let\x27s approach this carefully."]
  let base_options := base_options ++
    (if strContains personality_traits.toLower "confident" then
      ["I know exactly what to do in this situation!"] else [])
  let base_options := base_options ++
    (if strContains personality_traits.toLower "shy" then
      ["Um... maybe we should think about this more?"] else [])
  let base_options := base_options ++
    (if strContains personality_traits.toLower "aggressive" then
      ["We need to take action now!"] else [])
  base_options.take 4

/-! ### Markdown export (`generate_markdown_export`) -/

def mdHeaderLines (data : ExportData) : List String :=
  ["# Visual Novel Script",
   "\n**Export Date:** " ++ data.export_date,
   "\n## Story Concept",
   "\n" ++ data.story_concept]

def mdCharEntry (char : Character) : List String :=
  ["\n### " ++ char.name ++ " (" ++ char.role ++ ")",
   "- **Age:** " ++ toString char.age,
   "- **Personality:** " ++ char.personality,
   "- **Background:** " ++ char.background,
   "- **Goals:** " ++ char.goals]

def mdCharacterLines (characters : List Character) : List String :=
  if characters = [] then []
  else "\n## Characters" :: characters.flatMap mdCharEntry

def mdArcEntry (arc : StoryArc) : List String :=
  ["\n### " ++ arc.name,
   "**Chapters:** " ++ toString arc.start_chapter ++ " - " ++ toString arc.end_chapter,
   "**Description:** " ++ arc.description,
   "**Themes:** " ++ arc.themes]
  ++ (if arc.characters = [] then []
      else ["**Characters:** " ++ String.intercalate ", " arc.characters])

def mdArcLines (story_arcs : List StoryArc) : List String :=
  if story_arcs = [] then []
  else "\n## Story Arcs" :: story_arcs.flatMap mdArcEntry

def mdMilestoneEntry (m : Milestone) : List String :=
  ["\n### Chapter " ++ toString m.chapter ++ ": " ++ m.name,
   "**Type:** " ++ m.type,
   "**Impact:** " ++ m.impact,
   "**Description:** " ++ m.description]
  ++ (if truthyStrOpt m.related_arc then
        ["**Related Arc:** " ++ m.related_arc.getD ""] else [])

def mdMilestoneLines (milestones : List Milestone) : List String :=
  if milestones = [] then []
  else "\n## Story Milestones" :: (pySortMilestones milestones).flatMap mdMilestoneEntry

def mdSceneEntry (scene : DialogueScene) : List String :=
  ["\n### " ++ scene.name ++ " (Chapter " ++ toString scene.chapter ++ ")",
   "**Characters:** " ++ String.intercalate ", " scene.characters,
   "**Dialogue:** " ++ scene.dialogue]
  ++ (if scene.branches = [] then []
      else "**Response Options:**" ::
        scene.branches.enum.map (fun p => toString (p.1 + 1) ++ ". " ++ p.2))

def mdSceneLines (dialogue_scenes : List DialogueScene) : List String :=
  if dialogue_scenes = [] then []
  else "\n## Dialogue Scenes" :: dialogue_scenes.flatMap mdSceneEntry

def generate_markdown_export (data : ExportData) : String :=
  String.intercalate "\n"
    (mdHeaderLines data ++ mdCharacterLines data.characters ++ mdArcLines data.story_arcs
      ++ mdMilestoneLines data.milestones ++ mdSceneLines data.dialogue_scenes)

/-! ### CSV summary (`generate_csv_summary`) -/

def csvMetricNames : List String :=
  ["Total Characters", "Total Story Arcs", "Total Milestones",
   "Total Dialogue Scenes", "Estimated Chapters", "Main Characters",
   "Supporting Characters"]

def csvCounts (data : ExportData) : List Int :=
  [(data.characters.length : Int),
   (data.story_arcs.length : Int),
   (data.milestones.length : Int),
   (data.dialogue_scenes.length : Int),
   (if data.milestones = [] then 0
    else pyMax ((data.milestones.map (·.chapter)) ++ [0])),
   ((data.characters.filter (fun c => c.role == "Main Character")).length : Int),
   ((data.characters.filter
      (fun c => !(["Main Character", "Love Interest"].contains c.role))).length : Int)]

/-- `pd.DataFrame(summary_data).to_csv(index=False)`: a header row and one
`Metric,Count` line per entry, each line terminated by a newline (no field
ever needs CSV quoting here: the metric names are fixed comma-free labels
and the counts are integers). -/
def generate_csv_summary (data : ExportData) : String :=
  "Metric,Count\n" ++
    String.join (((csvMetricNames.zip (csvCounts data)).map
      (fun p => p.1 ++ "," ++ toString p.2 ++ "\n")))

/-! ### JSON export payload -/

def charToJson (c : Character) : JValue :=
  .jobj (.ofList
    [("name", .jstr c.name), ("role", .jstr c.role), ("age", .jint c.age),
     ("personality", .jstr c.personality), ("background", .jstr c.background),
     ("goals", .jstr c.goals), ("created_at", .jstr c.created_at)])

def arcToJson (a : StoryArc) : JValue :=
  .jobj (.ofList
    [("name", .jstr a.name), ("description", .jstr a.description),
     ("start_chapter", .jint a.start_chapter), ("end_chapter", .jint a.end_chapter),
     ("themes", .jstr a.themes),
     ("characters", .jarr (.ofList (a.characters.map .jstr))),
     ("created_at", .jstr a.created_at)])

def milestoneToJson (m : Milestone) : JValue :=
  .jobj (.ofList
    [("name", .jstr m.name), ("description", .jstr m.description),
     ("chapter", .jint m.chapter), ("type", .jstr m.type),
     ("impact", .jstr m.impact),
     ("related_arc", match m.related_arc with | none => .jnull | some s => .jstr s),
     ("created_at", .jstr m.created_at)])

def sceneToJson (s : DialogueScene) : JValue :=
  .jobj (.ofList
    [("name", .jstr s.name), ("chapter", .jint s.chapter),
     ("characters", .jarr (.ofList (s.characters.map .jstr))),
     ("dialogue", .jstr s.dialogue),
     ("branches", .jarr (.ofList (s.branches.map .jstr)))])

def exportDataToJson (d : ExportData) : JValue :=
  .jobj (.ofList
    [("story_concept", .jstr d.story_concept),
     ("characters", .jarr (.ofList (d.characters.map charToJson))),
     ("story_arcs", .jarr (.ofList (d.story_arcs.map arcToJson))),
     ("milestones", .jarr (.ofList (d.milestones.map milestoneToJson))),
     ("dialogue_scenes", .jarr (.ofList (d.dialogue_scenes.map sceneToJson))),
     ("export_date", .jstr d.export_date)])

/-! ### `export_script_format` -/

/-- `export_script_format`; `now` stands for the `datetime.now().isoformat()`
string taken when `export_data` is built. -/
def export_script_format (now story_concept : String)
    (characters : List Character) (story_arcs : List StoryArc)
    (milestones : List Milestone) (dialogue_scenes : List DialogueScene)
    (format_type : String) : String :=
  let export_data : ExportData :=
    { story_concept := story_concept, characters := characters,
      story_arcs := story_arcs, milestones := milestones,
      dialogue_scenes := dialogue_scenes, export_date := now }
  if format_type = "JSON" then jsonDumps2 (exportDataToJson export_data)
  else if format_type = "Markdown" then generate_markdown_export export_data
  else if format_type = "CSV Summary" then generate_csv_summary export_data
  else jsonDumps2 (exportDataToJson export_data)

/-! ### `analyze_story_structure` -/

structure Analysis where
  character_count : Nat
  arc_count : Nat
  milestone_count : Nat
  estimated_length : Int
  character_roles : List (String × Nat)
  pacing_analysis : List String
  deriving DecidableEq, Repr

/-- `analysis['character_roles'][role] = ...get(role, 0) + 1` on an
insertion-ordered dict. -/
def bumpRole (h : List (String × Nat)) (role : String) : List (String × Nat) :=
  match h with
  | [] => [(role, 1)]
  | (r, n) :: t => if r = role then (r, n + 1) :: t else (r, n) :: bumpRole t role

def rolesHist (characters : List Character) : List (String × Nat) :=
  characters.foldl (fun h c => bumpRole h c.role) []

/-- The pacing loop: for each adjacent pair of the sorted chapter list with
difference above 3, one gap message. -/
def gapMessages : List Int → List String
  | a :: b :: rest =>
    (if 3 < b - a then
      ["Large gap between chapters " ++ toString a ++ " and " ++ toString b]
     else []) ++ gapMessages (b :: rest)
  | _ => []

def analyze_story_structure (characters : List Character)
    (story_arcs : List StoryArc) (milestones : List Milestone) : Analysis :=
  { character_count := characters.length
    arc_count := story_arcs.length
    milestone_count := milestones.length
    estimated_length :=
      if milestones ≠ [] then pyMax (milestones.map (·.chapter))
      else if story_arcs ≠ [] then pyMax (story_arcs.map (·.end_chapter))
      else 0
    character_roles := rolesHist characters
    pacing_analysis :=
      if milestones = [] then []
      else gapMessages (pySortInts (milestones.map (·.chapter))) }

/-! ### `validate_story_structure` -/

def mainCharWarning : String := "Consider adding a Main Character to your story."

def manyMainWarning : String :=
  "You have many Main Characters - consider if some should be Supporting characters."

def coverageWarning : String := "Some chapters may not be covered by any story arc."

def criticalWarning : String :=
  "You have many Critical milestones - consider varying the impact levels."

def tensionWarning : String :=
  "Consider adding some High or Critical impact milestones for dramatic tension."

/-- `covered_chapters`: the set union of `range(start, end + 1)` over the
arcs. -/
def coveredChapters (story_arcs : List StoryArc) : Finset Int :=
  story_arcs.foldl (fun s arc => s ∪ Finset.Icc arc.start_chapter arc.end_chapter) ∅

def validate_story_structure (characters : List Character)
    (story_arcs : List StoryArc) (milestones : List Milestone) : List String :=
  (let main_chars := characters.filter (fun c => c.role == "Main Character")
   if main_chars.length = 0 then [mainCharWarning]
   else if 3 < main_chars.length then [manyMainWarning]
   else [])
  ++ (if story_arcs = [] then []
      else if ((coveredChapters story_arcs).card : Int)
              < pyMax (story_arcs.map (·.end_chapter)) then [coverageWarning]
      else [])
  ++ (if milestones = [] then []
      else
        (if 3 < (milestones.map (·.impact)).count "Critical" then [criticalWarning]
         else [])
        ++ (if "High" ∉ milestones.map (·.impact) ∧ "Critical" ∉ milestones.map (·.impact)
            then [tensionWarning] else []))

/-! ### Statement-by-statement state-passing images (for the frame claim)

Each `_run` function re-traces its source function and additionally
returns the values the caller's list arguments hold when the function
returns.  The only statements in the source that touch sequence values at
all are `milestone_chapters = [m['chapter'] for m in milestones]` (a fresh
list) followed by `milestone_chapters.sort()` (an in-place sort of that
fresh local), `sorted(data['milestones'], ...)` (a fresh sorted list) and
`covered_chapters.update(...)` (a fresh local set); none rebinds or
mutates an argument, so the returned argument values are the ones passed
in. -/

def analyze_story_structure_run (characters : List Character)
    (story_arcs : List StoryArc) (milestones : List Milestone) :
    Analysis × List Character × List StoryArc × List Milestone :=
  let milestone_chapters := milestones.map (·.chapter)
  let milestone_chapters := pySortInts milestone_chapters
  ({ character_count := characters.length
     arc_count := story_arcs.length
     milestone_count := milestones.length
     estimated_length :=
       if milestones ≠ [] then pyMax (milestones.map (·.chapter))
       else if story_arcs ≠ [] then pyMax (story_arcs.map (·.end_chapter))
       else 0
     character_roles := rolesHist characters
     pacing_analysis :=
       if milestones = [] then []
       else gapMessages milestone_chapters },
   characters, story_arcs, milestones)

def validate_story_structure_run (characters : List Character)
    (story_arcs : List StoryArc) (milestones : List Milestone) :
    List String × List Character × List StoryArc × List Milestone :=
  let warnings :=
    (let main_chars := characters.filter (fun c => c.role == "Main Character")
     if main_chars.length = 0 then [mainCharWarning]
     else if 3 < main_chars.length then [manyMainWarning]
     else [])
    ++ (if story_arcs = [] then []
        else
          let covered_chapters := coveredChapters story_arcs
          if (covered_chapters.card : Int)
              < pyMax (story_arcs.map (·.end_chapter)) then [coverageWarning]
          else [])
    ++ (if milestones = [] then []
        else
          (if 3 < (milestones.map (·.impact)).count "Critical" then [criticalWarning]
           else [])
          ++ (if "High" ∉ milestones.map (·.impact) ∧ "Critical" ∉ milestones.map (·.impact)
              then [tensionWarning] else []))
  (warnings, characters, story_arcs, milestones)

def export_script_format_run (now story_concept : String)
    (characters : List Character) (story_arcs : List StoryArc)
    (milestones : List Milestone) (dialogue_scenes : List DialogueScene)
    (format_type : String) :
    String × List Character × List StoryArc × List Milestone × List DialogueScene :=
  let export_data : ExportData :=
    { story_concept := story_concept, characters := characters,
      story_arcs := story_arcs, milestones := milestones,
      dialogue_scenes := dialogue_scenes, export_date := now }
  let out :=
    if format_type = "JSON" then jsonDumps2 (exportDataToJson export_data)
    else if format_type = "Markdown" then generate_markdown_export export_data
    else if format_type = "CSV Summary" then generate_csv_summary export_data
    else jsonDumps2 (exportDataToJson export_data)
  (out, characters, story_arcs, milestones, dialogue_scenes)

/-! ## Lemmas

### Characters, digits and whitespace -/

theorem hexVal?_hexDigitChar48 (d : Nat) (h : d < 16) :
    hexVal? (hexDigitChar48 d) = some d := by
  interval_cases d <;> decide

theorem isDig_hexDigitChar48 (d : Nat) (h : d < 10) :
    isDig (hexDigitChar48 d) = true := by
  interval_cases d <;> decide

theorem toNat_hexDigitChar48 (d : Nat) (h : d < 10) :
    (hexDigitChar48 d).toNat = 48 + d := by
  interval_cases d <;> decide

theorem isDig_ne_delims {c : Char} (h : isDig c = true) :
    c ≠ 'n' ∧ c ≠ '"' ∧ c ≠ '[' ∧ c ≠ '\x7b' ∧ c ≠ '-' := by
  refine ⟨?_, ?_, ?_, ?_, ?_⟩ <;> (intro he; subst he; exact absurd h (by decide))

theorem isWs_eq_false_of_isDig {c : Char} (h : isDig c = true) : isWs c = false := by
  by_cases h1 : c = ' '
  · subst h1; exact absurd h (by decide)
  · by_cases h2 : c = '\n'
    · subst h2; exact absurd h (by decide)
    · by_cases h3 : c = '\t'
      · subst h3; exact absurd h (by decide)
      · by_cases h4 : c = '\r'
        · subst h4; exact absurd h (by decide)
        · simp [isWs, h1, h2, h3, h4]

theorem digitsToNat_append (l : List Char) (c : Char) :
    digitsToNat (l ++ [c]) = digitsToNat l * 10 + (c.toNat - 48) := by
  simp [digitsToNat, List.foldl_append]

theorem natDigitsAux_spec :
    ∀ fuel n, n < fuel →
      natDigitsAux fuel n ≠ [] ∧ (∀ c ∈ natDigitsAux fuel n, isDig c = true) ∧
        digitsToNat (natDigitsAux fuel n) = n := by
  intro fuel
  induction fuel with
  | zero => intro n h; omega
  | succ f ih =>
    intro n h
    by_cases h10 : n < 10
    · simp only [natDigitsAux, if_pos h10]
      refine ⟨by simp, ?_, ?_⟩
      · intro c hc
        simp only [List.mem_singleton] at hc
        subst hc
        exact isDig_hexDigitChar48 n h10
      · simp [digitsToNat, toNat_hexDigitChar48 n h10]
    · have hrec : n / 10 < f := by omega
      obtain ⟨hne, hdig, hval⟩ := ih (n / 10) hrec
      simp only [natDigitsAux, if_neg h10]
      refine ⟨by simp, ?_, ?_⟩
      · intro c hc
        rcases List.mem_append.1 hc with h1 | h1
        · exact hdig c h1
        · simp only [List.mem_singleton] at h1
          subst h1
          exact isDig_hexDigitChar48 (n % 10) (by omega)
      · rw [digitsToNat_append, hval, toNat_hexDigitChar48 (n % 10) (by omega)]
        omega

theorem natDigits_spec (n : Nat) :
    natDigits n ≠ [] ∧ (∀ c ∈ natDigits n, isDig c = true) ∧
      digitsToNat (natDigits n) = n :=
  natDigitsAux_spec (n + 1) n (by omega)

theorem takeDigits_append (ds rest : List Char) (hds : ∀ c ∈ ds, isDig c = true)
    (hrest : headNotDig rest = true) : takeDigits (ds ++ rest) = (ds, rest) := by
  induction ds with
  | nil =>
    cases rest with
    | nil => rfl
    | cons c r =>
      simp only [headNotDig, Bool.not_eq_true'] at hrest
      simp [takeDigits, hrest]
  | cons c t ih =>
    have hc : isDig c = true := hds c (by simp)
    have ht : ∀ x ∈ t, isDig x = true := fun x hx => hds x (by simp [hx])
    simp [takeDigits, hc, ih ht]

theorem skipWs_pad (n : Nat) (l : List Char) : skipWs (pad n ++ l) = skipWs l := by
  induction n with
  | zero => simp [pad]
  | succ m ih =>
    have : pad (m + 1) = ' ' :: pad m := by simp [pad, List.replicate_succ]
    rw [this]
    simpa [skipWs, isWs] using ih

theorem skipWs_cons_of_not_ws {c : Char} (l : List Char) (h : isWs c = false) :
    skipWs (c :: l) = c :: l := by
  simp [skipWs, h]

theorem headIs_cons (c : Char) (l : List Char) (d : Char) :
    headIs (c :: l) d = decide (c = d) := rfl

/-! ### String-literal escaping round trip -/

theorem parseStrAux_quote (fuel : Nat) (z : List Char) :
    parseStrAux (fuel + 1) ('"' :: z) = some ([], z) := rfl

theorem parseStrAux_u_nosurr {a b c2 d : Char} {va vb vc vd : Nat} {z : List Char}
    (ha : hexVal? a = some va) (hb : hexVal? b = some vb) (hc : hexVal? c2 = some vc)
    (hd : hexVal? d = some vd)
    (hns : ¬(55296 ≤ va * 4096 + vb * 256 + vc * 16 + vd ∧
             va * 4096 + vb * 256 + vc * 16 + vd ≤ 56319)) (fuel : Nat) :
    parseStrAux (fuel + 1) ('\\' :: 'u' :: a :: b :: c2 :: d :: z) =
      (parseStrAux fuel z).map
        (fun p => (Char.ofNat (va * 4096 + vb * 256 + vc * 16 + vd) :: p.1, p.2)) := by
  simp only [parseStrAux, ha, hb, hc, hd]
  simp only [if_neg hns]
  simp

theorem parseStrAux_u_surr {a b c2 d e2 f2 g2 h2 : Char} {va vb vc vd ve vf vg vh : Nat}
    {z : List Char}
    (ha : hexVal? a = some va) (hb : hexVal? b = some vb) (hc : hexVal? c2 = some vc)
    (hd : hexVal? d = some vd) (he : hexVal? e2 = some ve) (hf : hexVal? f2 = some vf)
    (hg : hexVal? g2 = some vg) (hh : hexVal? h2 = some vh)
    (hhi : 55296 ≤ va * 4096 + vb * 256 + vc * 16 + vd ∧
           va * 4096 + vb * 256 + vc * 16 + vd ≤ 56319)
    (hlo : 56320 ≤ ve * 4096 + vf * 256 + vg * 16 + vh ∧
           ve * 4096 + vf * 256 + vg * 16 + vh ≤ 57343) (fuel : Nat) :
    parseStrAux (fuel + 1) ('\\' :: 'u' :: a :: b :: c2 :: d :: '\\' :: 'u' :: e2 :: f2 :: g2 :: h2 :: z) =
      (parseStrAux fuel z).map
        (fun p => (Char.ofNat (65536 + (va * 4096 + vb * 256 + vc * 16 + vd - 55296) * 1024 +
          (ve * 4096 + vf * 256 + vg * 16 + vh - 56320)) :: p.1, p.2)) := by
  simp only [parseStrAux, ha, hb, hc, hd, he, hf, hg, hh]
  simp only [if_pos hhi, if_pos hlo]
  simp

theorem char_toNat_lt (c : Char) : c.toNat < 1114112 := by
  have h := c.valid
  simp only [Char.toNat]
  rcases h with h | h
  · omega
  · omega

theorem char_not_surr (c : Char) : c.toNat < 55296 ∨ 57343 < c.toNat := by
  have h := c.valid
  simp only [Char.toNat]
  rcases h with h | h
  · left; omega
  · right; omega

theorem parseStrAux_escChar (c : Char) (fuel : Nat) (z : List Char) :
    parseStrAux (fuel + 1) (escChar c ++ z) =
      (parseStrAux fuel z).map (fun p => (c :: p.1, p.2)) := by
  by_cases h1 : c = '"'
  · subst h1; rfl
  by_cases h2 : c = '\\'
  · subst h2; rfl
  by_cases h3 : c = '\n'
  · subst h3; rfl
  by_cases h4 : c = '\r'
  · subst h4; rfl
  by_cases h5 : c = '\t'
  · subst h5; rfl
  by_cases h6 : c = '\x08'
  · subst h6; rfl
  by_cases h7 : c = '\x0c'
  · subst h7; rfl
  by_cases hr : c.toNat < 32 ∨ 126 < c.toNat
  · by_cases hbig : c.toNat < 65536
    · have he : escChar c = uEsc c.toNat := by
        simp only [escChar, if_neg h1, if_neg h2, if_neg h3, if_neg h4, if_neg h5,
          if_neg h6, if_neg h7, if_pos hr, if_pos hbig]
      have hsurr := char_not_surr c
      rw [he]
      simp only [uEsc, hex4, List.cons_append, List.nil_append]
      rw [parseStrAux_u_nosurr (hexVal?_hexDigitChar48 _ (by omega))
        (hexVal?_hexDigitChar48 _ (by omega)) (hexVal?_hexDigitChar48 _ (by omega))
        (hexVal?_hexDigitChar48 _ (by omega)) (by omega) fuel]
      rw [show c.toNat / 4096 % 16 * 4096 + c.toNat / 256 % 16 * 256 +
        c.toNat / 16 % 16 * 16 + c.toNat % 16 = c.toNat from by omega]
      rw [Char.ofNat_toNat]
    · have hlt := char_toNat_lt c
      have he : escChar c =
          uEsc (55296 + (c.toNat - 65536) / 1024) ++ uEsc (56320 + (c.toNat - 65536) % 1024) := by
        simp only [escChar, if_neg h1, if_neg h2, if_neg h3, if_neg h4, if_neg h5,
          if_neg h6, if_neg h7, if_pos hr, if_neg hbig]
      rw [he]
      simp only [uEsc, hex4, List.cons_append, List.nil_append, List.append_assoc]
      rw [parseStrAux_u_surr (hexVal?_hexDigitChar48 _ (by omega))
        (hexVal?_hexDigitChar48 _ (by omega)) (hexVal?_hexDigitChar48 _ (by omega))
        (hexVal?_hexDigitChar48 _ (by omega)) (hexVal?_hexDigitChar48 _ (by omega))
        (hexVal?_hexDigitChar48 _ (by omega)) (hexVal?_hexDigitChar48 _ (by omega))
        (hexVal?_hexDigitChar48 _ (by omega)) (by constructor <;> omega)
        (by constructor <;> omega) fuel]
      rw [show 65536 +
        ((55296 + (c.toNat - 65536) / 1024) / 4096 % 16 * 4096 +
          (55296 + (c.toNat - 65536) / 1024) / 256 % 16 * 256 +
          (55296 + (c.toNat - 65536) / 1024) / 16 % 16 * 16 +
          (55296 + (c.toNat - 65536) / 1024) % 16 - 55296) * 1024 +
        ((56320 + (c.toNat - 65536) % 1024) / 4096 % 16 * 4096 +
          (56320 + (c.toNat - 65536) % 1024) / 256 % 16 * 256 +
          (56320 + (c.toNat - 65536) % 1024) / 16 % 16 * 16 +
          (56320 + (c.toNat - 65536) % 1024) % 16 - 56320) = c.toNat from by omega]
      rw [Char.ofNat_toNat]
  · have he : escChar c = [c] := by
      simp only [escChar, if_neg h1, if_neg h2, if_neg h3, if_neg h4, if_neg h5,
        if_neg h6, if_neg h7, if_neg hr]
    rw [he]
    simp only [List.cons_append, List.nil_append, parseStrAux]
    rw [if_neg h1, if_neg h2]
    simp

theorem parseStrAux_escList (cl : List Char) :
    ∀ fuel z, cl.length + 1 ≤ fuel →
      parseStrAux fuel (cl.flatMap escChar ++ '"' :: z) = some (cl, z) := by
  induction cl with
  | nil =>
    intro fuel z h
    match fuel, h with
    | f + 1, _ => simp [parseStrAux]
  | cons c t ih =>
    intro fuel z h
    match fuel, h with
    | f + 1, h =>
      simp only [List.flatMap_cons, List.append_assoc]
      rw [parseStrAux_escChar c f]
      rw [ih f z (by simpa using Nat.le_of_succ_le_succ h)]
      rfl

/-! ### First characters of rendered values -/

theorem natDigits_head (n : Nat) : ∃ c r, natDigits n = c :: r ∧ isDig c = true := by
  obtain ⟨hne, hdig, _⟩ := natDigits_spec n
  cases h : natDigits n with
  | nil => exact absurd h hne
  | cons c r =>
    refine ⟨c, r, rfl, hdig c ?_⟩
    rw [h]
    exact List.mem_cons_self c r

theorem renderVal_head (ind : Nat) (j : JValue) :
    ∃ c r, renderVal ind j = c :: r ∧
      (c = 'n' ∨ c = '"' ∨ c = '[' ∨ c = '\x7b' ∨ c = '-' ∨ isDig c = true) := by
  cases j with
  | jnull => exact ⟨'n', _, rfl, by simp⟩
  | jint i =>
    by_cases hi : i < 0
    · refine ⟨'-', natDigits i.natAbs, ?_, by simp⟩
      simp [renderVal, intRender, hi]
    · obtain ⟨c, r, hcr, hdig⟩ := natDigits_head i.natAbs
      refine ⟨c, r, ?_, by simp [hdig]⟩
      simp [renderVal, intRender, hi, hcr]
  | jstr s => exact ⟨'"', _, rfl, by simp⟩
  | jarr a =>
    cases a with
    | nil => exact ⟨'[', _, rfl, by simp⟩
    | cons v t => exact ⟨'[', _, rfl, by simp⟩
  | jobj o =>
    cases o with
    | nil => exact ⟨'\x7b', _, rfl, by simp⟩
    | cons k v t => exact ⟨'\x7b', _, rfl, by simp⟩

theorem head_facts {c : Char}
    (h : c = 'n' ∨ c = '"' ∨ c = '[' ∨ c = '\x7b' ∨ c = '-' ∨ isDig c = true) :
    isWs c = false ∧ c ≠ ']' ∧ c ≠ '\x7d' ∧ c ≠ ',' := by
  rcases h with h | h | h | h | h | h
  · subst h; exact ⟨by decide, by decide, by decide, by decide⟩
  · subst h; exact ⟨by decide, by decide, by decide, by decide⟩
  · subst h; exact ⟨by decide, by decide, by decide, by decide⟩
  · subst h; exact ⟨by decide, by decide, by decide, by decide⟩
  · subst h; exact ⟨by decide, by decide, by decide, by decide⟩
  · refine ⟨isWs_eq_false_of_isDig h, ?_, ?_, ?_⟩ <;>
      (intro he; subst he; exact absurd h (by decide))

theorem skipWs_renderVal (ind : Nat) (j : JValue) (x : List Char) :
    skipWs (renderVal ind j ++ x) = renderVal ind j ++ x := by
  obtain ⟨c, r, hcr, hf⟩ := renderVal_head ind j
  rw [hcr]
  simp only [List.cons_append]
  exact skipWs_cons_of_not_ws _ (head_facts hf).1

theorem headNotDig_arrTail (ind ind2 : Nat) (t : JArr) (rest : List Char) :
    headNotDig (arrTail ind ind2 t rest) = true := by
  cases t <;> rfl

theorem headNotDig_objTail (ind ind2 : Nat) (t : JObj) (rest : List Char) :
    headNotDig (objTail ind ind2 t rest) = true := by
  cases t <;> rfl

/-! ### Integers round-trip through the parser -/

theorem parseVal_intRender (fuel : Nat) (i : Int) (rest : List Char)
    (hrest : headNotDig rest = true) :
    parseVal (fuel + 1) (intRender i ++ rest) = some (.jint i, rest) := by
  obtain ⟨hne, hdig, hval⟩ := natDigits_spec i.natAbs
  by_cases hi : i < 0
  · simp only [intRender, if_pos hi, List.cons_append]
    simp only [parseVal]
    rw [if_neg (by decide), if_neg (by decide), if_neg (by decide), if_neg (by decide),
      if_pos trivial]
    rw [takeDigits_append _ _ hdig hrest]
    simp only [if_neg hne, hval]
    rw [show -((i.natAbs : Nat) : Int) = i from by omega]
  · obtain ⟨c, cs, hcr, hdigc⟩ := natDigits_head i.natAbs
    have hd5 := isDig_ne_delims hdigc
    have hbody : (c :: cs) ++ rest = intRender i ++ rest := by
      simp [intRender, hi, hcr]
    rw [← hbody]
    simp only [List.cons_append, parseVal]
    rw [if_neg hd5.1, if_neg hd5.2.1, if_neg hd5.2.2.1, if_neg hd5.2.2.2.1,
      if_neg hd5.2.2.2.2, if_pos hdigc]
    rw [show c :: (cs ++ rest) = (c :: cs) ++ rest from rfl, ← hcr,
      takeDigits_append _ _ hdig hrest]
    simp only [hval]
    rw [show ((i.natAbs : Nat) : Int) = i from by omega]

/-! ### Parse-after-render round trip -/

theorem jsizeV_pos (j : JValue) : 1 ≤ jsizeV j := by
  cases j <;> simp [jsizeV]

theorem skipWs_newline (l : List Char) : skipWs ('\n' :: l) = skipWs l := by
  simp [skipWs, isWs]

theorem skipWs_cons_of_ws {c : Char} (l : List Char) (h : isWs c = true) :
    skipWs (c :: l) = skipWs l := by
  simp [skipWs, h]

theorem escChar_ne_nil (c : Char) : 1 ≤ (escChar c).length := by
  unfold escChar
  split_ifs <;> simp [uEsc, hex4]

theorem flatMap_escChar_len (cl : List Char) : cl.length ≤ (cl.flatMap escChar).length := by
  induction cl with
  | nil => simp
  | cons c t ih =>
    have := escChar_ne_nil c
    simp only [List.flatMap_cons, List.length_append, List.length_cons]
    omega

theorem arr_items_shape (ind ind2 : Nat) (v : JValue) (t : JArr) (rest : List Char) :
    renderArrItems ind (.cons v t) ++ '\n' :: (pad ind2 ++ (']' :: rest)) =
      pad ind ++ (renderVal ind v ++ arrTail ind ind2 t rest) := by
  cases t <;> simp [renderArrItems, arrTail, List.append_assoc]

theorem obj_items_shape (ind ind2 : Nat) (k : String) (v : JValue) (t : JObj)
    (rest : List Char) :
    renderObjItems ind (.cons k v t) ++ '\n' :: (pad ind2 ++ ('\x7d' :: rest)) =
      pad ind ++ ('"' :: (escStr k ++ '"' ::
        (':' :: ' ' :: (renderVal ind v ++ objTail ind ind2 t rest)))) := by
  cases t <;> simp [renderObjItems, objTail, List.append_assoc]

theorem JObj_sizeOf_pos (o : JObj) : 0 < sizeOf o := by
  cases o <;> simp_arith

theorem JArr_sizeOf_pos (a : JArr) : 0 < sizeOf a := by
  cases a <;> simp_arith

mutual

theorem parseVal_render (j : JValue) :
    ∀ ind fuel rest, jsizeV j ≤ fuel → headNotDig rest = true →
      parseVal fuel (renderVal ind j ++ rest) = some (j, rest) := by
  intro ind fuel rest hf hrest
  obtain ⟨f, rfl⟩ : ∃ f, fuel = f + 1 := ⟨fuel - 1, by have := jsizeV_pos j; omega⟩
  cases j with
  | jnull =>
    simp only [renderVal, List.cons_append, List.nil_append, parseVal]
    simp
  | jint i =>
    have h : renderVal ind (.jint i) = intRender i := by simp [renderVal]
    rw [h]
    exact parseVal_intRender f i rest hrest
  | jstr s =>
    simp only [renderVal, List.cons_append, List.append_assoc, List.singleton_append,
      List.nil_append, escStr, parseVal]
    simp only [Char.reduceEq, reduceIte]
    have hlen : s.data.length + 1 ≤ (s.data.flatMap escChar ++ '"' :: rest).length + 1 := by
      have := flatMap_escChar_len s.data
      simp only [List.length_append, List.length_cons]
      omega
    rw [parseStrAux_escList s.data _ rest hlen]
    rfl
  | jarr a =>
    cases a with
    | nil =>
      simp only [renderVal, List.cons_append, List.nil_append, parseVal]
      simp [skipWs, isWs, headIs]
    | cons v t =>
      have hsize : jsizeA (.cons v t) ≤ f := by
        simp only [jsizeV] at hf
        omega
      simp only [renderVal, List.cons_append, List.append_assoc, List.singleton_append,
        List.nil_append, parseVal]
      simp only [Char.reduceEq, reduceIte]
      have hr2 : skipWs ('\n' :: (renderArrItems (ind + 2) (.cons v t) ++
          '\n' :: (pad ind ++ ']' :: rest))) =
          renderVal (ind + 2) v ++ arrTail (ind + 2) ind t rest := by
        rw [skipWs_newline, arr_items_shape (ind + 2) ind v t rest, skipWs_pad,
          skipWs_renderVal]
      rw [hr2]
      obtain ⟨c, cs, hcr, hfacts⟩ := renderVal_head (ind + 2) v
      have hhead : headIs (renderVal (ind + 2) v ++ arrTail (ind + 2) ind t rest) ']' =
          false := by
        rw [hcr]
        simp only [List.cons_append, headIs_cons]
        simp [(head_facts hfacts).2.1]
      rw [if_neg (by simp [hhead])]
      rw [parseArrItems_render v t (ind + 2) ind f rest hsize]
      rfl
  | jobj o =>
    cases o with
    | nil =>
      simp only [renderVal, List.cons_append, List.nil_append, parseVal]
      simp [skipWs, isWs, headIs]
    | cons k v t =>
      have hsize : jsizeO (.cons k v t) ≤ f := by
        simp only [jsizeV] at hf
        omega
      simp only [renderVal, List.cons_append, List.append_assoc, List.singleton_append,
        List.nil_append, parseVal]
      simp only [Char.reduceEq, reduceIte]
      have hr2 : skipWs ('\n' :: (renderObjItems (ind + 2) (.cons k v t) ++
          '\n' :: (pad ind ++ '\x7d' :: rest))) =
          '"' :: (escStr k ++ '"' ::
            (':' :: ' ' :: (renderVal (ind + 2) v ++ objTail (ind + 2) ind t rest))) := by
        rw [skipWs_newline, obj_items_shape (ind + 2) ind k v t rest, skipWs_pad,
          skipWs_cons_of_not_ws _ (by decide)]
      rw [hr2]
      rw [if_neg (by simp [headIs])]
      rw [parseObjItems_render k v t (ind + 2) ind f rest hsize]
      rfl
termination_by sizeOf j

theorem parseArrItems_render (v : JValue) (t : JArr) :
    ∀ ind ind2 fuel rest, jsizeA (.cons v t) ≤ fuel →
      parseArrItems fuel (renderVal ind v ++ arrTail ind ind2 t rest) =
        some (.cons v t, rest) := by
  intro ind ind2 fuel rest hf
  obtain ⟨f, rfl⟩ : ∃ f, fuel = f + 1 := ⟨fuel - 1, by simp only [jsizeA] at hf; omega⟩
  have hfv : jsizeV v ≤ f := by simp only [jsizeA] at hf; omega
  simp only [parseArrItems]
  rw [parseVal_render v ind f _ hfv (headNotDig_arrTail ind ind2 t rest)]
  simp only [Option.some_bind]
  cases ht : t with
  | nil =>
    simp only [arrTail]
    rw [skipWs_newline, skipWs_pad, skipWs_cons_of_not_ws _ (by decide)]
    simp [headIs]
  | cons w t2 =>
    have hsize2 : jsizeA (.cons w t2) ≤ f := by
      subst ht
      simp only [jsizeA] at hf ⊢
      have := jsizeV_pos v
      omega
    simp only [arrTail]
    rw [skipWs_cons_of_not_ws _ (by decide)]
    rw [if_neg (by simp [headIs]), if_pos (by simp [headIs])]
    simp only [List.tail_cons]
    rw [skipWs_newline, arr_items_shape ind ind2 w t2 rest, skipWs_pad, skipWs_renderVal]
    rw [parseArrItems_render w t2 ind ind2 f rest hsize2]
    rfl
termination_by sizeOf v + sizeOf t
decreasing_by
  all_goals simp_wf
  all_goals try subst ht
  all_goals try simp_arith
  all_goals try omega
  all_goals (have hpos := JArr_sizeOf_pos t; omega)

theorem parseObjItems_render (k : String) (v : JValue) (t : JObj) :
    ∀ ind ind2 fuel rest, jsizeO (.cons k v t) ≤ fuel →
      parseObjItems fuel ('"' :: (escStr k ++ '"' ::
          (':' :: ' ' :: (renderVal ind v ++ objTail ind ind2 t rest)))) =
        some (.cons k v t, rest) := by
  intro ind ind2 fuel rest hf
  obtain ⟨f, rfl⟩ : ∃ f, fuel = f + 1 := ⟨fuel - 1, by simp only [jsizeO] at hf; omega⟩
  have hfv : jsizeV v ≤ f := by simp only [jsizeO] at hf; omega
  simp only [parseObjItems, escStr]
  rw [if_pos (by simp [headIs])]
  simp only [List.tail_cons]
  have hlen : k.data.length + 1 ≤ (k.data.flatMap escChar ++ '"' ::
      (':' :: ' ' :: (renderVal ind v ++ objTail ind ind2 t rest))).length + 1 := by
    have := flatMap_escChar_len k.data
    simp only [List.length_append, List.length_cons]
    omega
  rw [parseStrAux_escList k.data _ _ hlen]
  simp only [Option.some_bind]
  rw [skipWs_cons_of_not_ws _ (by decide)]
  rw [if_pos (by simp [headIs])]
  simp only [List.tail_cons]
  rw [skipWs_cons_of_ws _ (by decide), skipWs_renderVal]
  rw [parseVal_render v ind f _ hfv (headNotDig_objTail ind ind2 t rest)]
  simp only [Option.some_bind]
  cases ht : t with
  | nil =>
    simp only [objTail]
    rw [skipWs_newline, skipWs_pad, skipWs_cons_of_not_ws _ (by decide)]
    rw [if_pos (by simp [headIs])]
    rfl
  | cons k2 w t2 =>
    have hsize2 : jsizeO (.cons k2 w t2) ≤ f := by
      subst ht
      simp only [jsizeO] at hf ⊢
      have := jsizeV_pos v
      omega
    simp only [objTail]
    rw [skipWs_cons_of_not_ws _ (by decide)]
    rw [if_neg (by simp [headIs]), if_pos (by simp [headIs])]
    simp only [List.tail_cons]
    rw [skipWs_newline, obj_items_shape ind ind2 k2 w t2 rest, skipWs_pad,
      skipWs_cons_of_not_ws _ (by decide)]
    rw [parseObjItems_render k2 w t2 ind ind2 f rest hsize2]
    rfl
termination_by sizeOf v + sizeOf t
decreasing_by
  all_goals simp_wf
  all_goals try subst ht
  all_goals try simp_arith
  all_goals try omega
  all_goals (have hpos := JObj_sizeOf_pos t; omega)

end

/-! ### The input length is always enough fuel -/

mutual

theorem jsizeV_le_renderLen (j : JValue) :
    ∀ ind, jsizeV j ≤ (renderVal ind j).length := by
  intro ind
  cases j with
  | jnull => simp [jsizeV, renderVal]
  | jint i =>
    have h : 0 < (natDigits i.natAbs).length :=
      List.length_pos.2 (natDigits_spec i.natAbs).1
    simp only [jsizeV, renderVal, intRender]
    split_ifs <;> simp <;> omega
  | jstr s => simp [jsizeV, renderVal]
  | jarr a =>
    cases ha : a with
    | nil => simp [jsizeV, jsizeA, renderVal]
    | cons v t =>
      have hItems := jsizeA_le_renderLen v t (ind + 2)
      simp only [jsizeV, renderVal, List.length_cons, List.length_append, pad,
        List.length_replicate]
      omega
  | jobj o =>
    cases ho : o with
    | nil => simp [jsizeV, jsizeO, renderVal]
    | cons k v t =>
      have hItems := jsizeO_le_renderLen k v t (ind + 2)
      simp only [jsizeV, renderVal, List.length_cons, List.length_append, pad,
        List.length_replicate]
      omega
termination_by sizeOf j
decreasing_by
  all_goals simp_wf
  all_goals try subst ha
  all_goals try subst ho
  all_goals try simp_arith
  all_goals try omega

theorem jsizeA_le_renderLen (v : JValue) (t : JArr) :
    ∀ ind, jsizeA (.cons v t) ≤ (renderArrItems ind (.cons v t)).length + 1 := by
  intro ind
  have hv := jsizeV_le_renderLen v ind
  cases ht : t with
  | nil =>
    simp only [jsizeA, renderArrItems, List.length_append, pad, List.length_replicate]
    omega
  | cons w t2 =>
    have hrec := jsizeA_le_renderLen w t2 ind
    simp only [jsizeA, renderArrItems, List.length_append, List.length_cons, pad,
      List.length_replicate]
    simp only [jsizeA] at hrec
    omega
termination_by sizeOf v + sizeOf t
decreasing_by
  all_goals simp_wf
  all_goals try subst ht
  all_goals try simp_arith
  all_goals try omega
  all_goals (have hpos := JArr_sizeOf_pos t; omega)

theorem jsizeO_le_renderLen (k : String) (v : JValue) (t : JObj) :
    ∀ ind, jsizeO (.cons k v t) ≤ (renderObjItems ind (.cons k v t)).length + 1 := by
  intro ind
  have hv := jsizeV_le_renderLen v ind
  cases ht : t with
  | nil =>
    simp only [jsizeO, renderObjItems, List.length_append, List.length_cons, pad,
      List.length_replicate]
    omega
  | cons k2 w t2 =>
    have hrec := jsizeO_le_renderLen k2 w t2 ind
    simp only [jsizeO, renderObjItems, List.length_append, List.length_cons, pad,
      List.length_replicate]
    simp only [jsizeO] at hrec
    omega
termination_by sizeOf v + sizeOf t
decreasing_by
  all_goals simp_wf
  all_goals try subst ht
  all_goals try simp_arith
  all_goals try omega
  all_goals (have hpos := JObj_sizeOf_pos t; omega)

end

/-- Parsing `json.dumps(v, indent=2)` gives back exactly `v`. -/
theorem parseJson_jsonDumps (j : JValue) : parseJson (jsonDumps2 j) = some j := by
  have hlen := jsizeV_le_renderLen j 0
  have h := parseVal_render j 0 ((renderVal 0 j).length + 1) [] (by omega) rfl
  rw [List.append_nil] at h
  show (match parseVal ((renderVal 0 j).length + 1) (renderVal 0 j) with
    | some (v, []) => some v
    | _ => none) = some j
  rw [h]

/-! ### Lemmas on the JSON payload shape -/

theorem JArr_len_ofList (l : List JValue) : (JArr.ofList l).len = l.length := by
  induction l with
  | nil => rfl
  | cons v t ih => simp [JArr.ofList, JArr.len, ih]

/-! ## Claims -/

/-- C3: for every story concept string and every four entity lists, parsing
the JSON text produced by `export_script_format` with format `"JSON"` yields
an object whose `story_concept` field is exactly the input concept and whose
`characters`, `story_arcs`, `milestones`, `dialogue_scenes` fields are
arrays of the same lengths as the corresponding input lists. -/
theorem claim3_json_roundtrip (now story_concept : String)
    (characters : List Character) (story_arcs : List StoryArc)
    (milestones : List Milestone) (dialogue_scenes : List DialogueScene) :
    ∃ j : JValue,
      parseJson (export_script_format now story_concept characters story_arcs milestones
        dialogue_scenes "JSON") = some j
      ∧ jLookup j "story_concept" = some (.jstr story_concept)
      ∧ (jLookup j "characters").bind jLen = some characters.length
      ∧ (jLookup j "story_arcs").bind jLen = some story_arcs.length
      ∧ (jLookup j "milestones").bind jLen = some milestones.length
      ∧ (jLookup j "dialogue_scenes").bind jLen = some dialogue_scenes.length := by
  refine ⟨exportDataToJson ⟨story_concept, characters, story_arcs, milestones,
    dialogue_scenes, now⟩, ?_, ?_, ?_, ?_, ?_, ?_⟩
  · have h : export_script_format now story_concept characters story_arcs milestones
        dialogue_scenes "JSON" =
        jsonDumps2 (exportDataToJson ⟨story_concept, characters, story_arcs, milestones,
          dialogue_scenes, now⟩) := by
      simp [export_script_format]
    rw [h]
    exact parseJson_jsonDumps _
  · simp [exportDataToJson, jLookup, JObj.ofList, JObj.find]
  · simp [exportDataToJson, jLookup, JObj.ofList, JObj.find, jLen, JArr_len_ofList]
  · simp [exportDataToJson, jLookup, JObj.ofList, JObj.find, jLen, JArr_len_ofList]
  · simp [exportDataToJson, jLookup, JObj.ofList, JObj.find, jLen, JArr_len_ofList]
  · simp [exportDataToJson, jLookup, JObj.ofList, JObj.find, jLen, JArr_len_ofList]

/-- C4: any `format_type` other than `"JSON"`, `"Markdown"`, `"CSV Summary"`
raises no error and produces exactly the JSON output on the same inputs. -/
theorem claim4_unknown_format_fallback (format_type : String)
    (h1 : format_type ≠ "JSON") (h2 : format_type ≠ "Markdown")
    (h3 : format_type ≠ "CSV Summary") (now story_concept : String)
    (characters : List Character) (story_arcs : List StoryArc)
    (milestones : List Milestone) (dialogue_scenes : List DialogueScene) :
    export_script_format now story_concept characters story_arcs milestones
        dialogue_scenes format_type =
      export_script_format now story_concept characters story_arcs milestones
        dialogue_scenes "JSON" := by
  simp [export_script_format, h1, h2, h3]

/-- C4 witness: the unknown format string `"XML"` falls back to the JSON
output. -/
theorem claim4_unknown_format_fallback_instance :
    export_script_format "T" "c" [] [] [] [] "XML" =
      export_script_format "T" "c" [] [] [] [] "JSON" :=
  claim4_unknown_format_fallback "XML" (by decide) (by decide) (by decide)
    "T" "c" [] [] [] []

/-- C9: the statement-by-statement state-passing images of
`analyze_story_structure`, `validate_story_structure` and
`export_script_format` (every format) return the caller's list arguments
unchanged alongside the pure result: the sorted orders used internally are
built on fresh copies. -/
theorem claim9_no_mutation (characters : List Character) (story_arcs : List StoryArc)
    (milestones : List Milestone) (dialogue_scenes : List DialogueScene)
    (now story_concept format_type : String) :
    analyze_story_structure_run characters story_arcs milestones =
      (analyze_story_structure characters story_arcs milestones,
        characters, story_arcs, milestones)
  ∧ validate_story_structure_run characters story_arcs milestones =
      (validate_story_structure characters story_arcs milestones,
        characters, story_arcs, milestones)
  ∧ export_script_format_run now story_concept characters story_arcs milestones
        dialogue_scenes format_type =
      (export_script_format now story_concept characters story_arcs milestones
        dialogue_scenes format_type, characters, story_arcs, milestones, dialogue_scenes) :=
  ⟨rfl, rfl, rfl⟩

/-- A string of the form `"What should we do about " ++ s ++ "?"` always
starts with its fixed prefix, so a string that does not cannot equal it. -/
theorem ne_base0 (t s : String)
    (h : ¬ (("What should we do about ").data <+: t.data)) :
    t ≠ "What should we do about " ++ s ++ "?" := by
  intro he
  apply h
  rw [he, String.data_append, String.data_append]
  simpa [List.append_assoc] using
    List.prefix_append ("What should we do about ").data (s.data ++ ("?").data)

/-- C10: `generate_dialogue_options` always returns exactly the four base
options, which depend only on `situation`; two calls differing only in
`character_name` and `personality_traits` agree, and none of the three
personality-specific options ever appears (the `take 4` cuts them off). -/
theorem claim10_dialogue_independent (n1 n2 situation t1 t2 : String) :
    generate_dialogue_options n1 situation t1 = generate_dialogue_options n2 situation t2
  ∧ generate_dialogue_options n1 situation t1 =
      ["What should we do about " ++ situation ++ "?",
       "I think we need to consider our options here.",
       "This reminds me of something that happened before.",
       "Let\x27s approach this carefully."]
  ∧ (generate_dialogue_options n1 situation t1).length = 4
  ∧ "I know exactly what to do in this situation!" ∉
      generate_dialogue_options n1 situation t1
  ∧ "Um... maybe we should think about this more?" ∉
      generate_dialogue_options n1 situation t1
  ∧ "We need to take action now!" ∉ generate_dialogue_options n1 situation t1 := by
  have hbase : ∀ n t, generate_dialogue_options n situation t =
      ["What should we do about " ++ situation ++ "?",
       "I think we need to consider our options here.",
       "This reminds me of something that happened before.",
       "Let\x27s approach this carefully."] := by
    intro n t
    simp [generate_dialogue_options]
  refine ⟨(hbase n1 t1).trans (hbase n2 t2).symm, hbase n1 t1, by rw [hbase n1 t1]; rfl, ?_, ?_, ?_⟩
  · rw [hbase n1 t1]
    intro hmem
    simp only [List.mem_cons, List.not_mem_nil, or_false] at hmem
    rcases hmem with h | h | h | h
    · exact ne_base0 _ situation (by decide) h
    · exact absurd h (by decide)
    · exact absurd h (by decide)
    · exact absurd h (by decide)
  · rw [hbase n1 t1]
    intro hmem
    simp only [List.mem_cons, List.not_mem_nil, or_false] at hmem
    rcases hmem with h | h | h | h
    · exact ne_base0 _ situation (by decide) h
    · exact absurd h (by decide)
    · exact absurd h (by decide)
    · exact absurd h (by decide)
  · rw [hbase n1 t1]
    intro hmem
    simp only [List.mem_cons, List.not_mem_nil, or_false] at hmem
    rcases hmem with h | h | h | h
    · exact ne_base0 _ situation (by decide) h
    · exact absurd h (by decide)
    · exact absurd h (by decide)
    · exact absurd h (by decide)

/-! ### Maximum bridging lemmas -/

theorem pyMax_cons_append_zero (x : Int) (xs : List Int) :
    pyMax ((x :: xs) ++ [0]) = max x (xs.foldr max 0) := by
  induction xs generalizing x with
  | nil => rfl
  | cons y ys ih =>
    have h1 : pyMax ((x :: y :: ys) ++ [0]) = pyMax ((max x y :: ys) ++ [0]) := rfl
    rw [h1, ih (max x y)]
    simp [max_assoc, List.foldr]

theorem csv_estimated_eq (milestones : List Milestone) :
    (if milestones = [] then (0 : Int)
     else pyMax ((milestones.map (·.chapter)) ++ [0])) =
      (milestones.map (·.chapter)).foldr max 0 := by
  cases milestones with
  | nil => rfl
  | cons m ms =>
    simp only [List.map_cons, if_neg (List.cons_ne_nil m ms)]
    rw [pyMax_cons_append_zero]
    rfl

theorem max?_eq_pyMax (l : List Int) (h : l ≠ []) : l.max? = some (pyMax l) := by
  cases l with
  | nil => exact absurd rfl h
  | cons x xs => rfl

/-- C1 (amended): through `export_script_format` with format `"CSV Summary"`,
the output is the `Metric,Count` header followed by exactly the seven rows in
order, where the first four counts are the list lengths, `Main Characters`
counts role `"Main Character"`, `Supporting Characters` counts roles outside
`{"Main Character", "Love Interest"}`, and `Estimated Chapters` is the
maximum of 0 and the milestone chapters (so the maximum chapter whenever any
chapter is nonnegative, and 0 for the empty list). -/
theorem claim1_csv_summary (now story_concept : String)
    (characters : List Character) (story_arcs : List StoryArc)
    (milestones : List Milestone) (dialogue_scenes : List DialogueScene) :
    export_script_format now story_concept characters story_arcs milestones
        dialogue_scenes "CSV Summary" =
      generate_csv_summary ⟨story_concept, characters, story_arcs, milestones,
        dialogue_scenes, now⟩
  ∧ generate_csv_summary ⟨story_concept, characters, story_arcs, milestones,
        dialogue_scenes, now⟩ =
      "Metric,Count\n" ++ String.join
        (([("Total Characters", (characters.length : Int)),
           ("Total Story Arcs", (story_arcs.length : Int)),
           ("Total Milestones", (milestones.length : Int)),
           ("Total Dialogue Scenes", (dialogue_scenes.length : Int)),
           ("Estimated Chapters", (milestones.map (·.chapter)).foldr max 0),
           ("Main Characters",
             (characters.countP (fun c => c.role == "Main Character") : Int)),
           ("Supporting Characters",
             (characters.countP
               (fun c => !(["Main Character", "Love Interest"].contains c.role)) : Int))].map
          (fun p => p.1 ++ "," ++ toString p.2 ++ "\n"))) := by
  constructor
  · simp [export_script_format]
  · simp only [generate_csv_summary, csvMetricNames, csvCounts,
      List.countP_eq_length_filter, ← csv_estimated_eq milestones]
    rfl

/-- C1 counterexample: with a single milestone whose `chapter` is `-1`, the
`Estimated Chapters` row of the CSV summary is `0`, while the maximum
milestone chapter (which the claim says the row equals) is `-1`. -/
theorem claim1_csv_summary_cex :
    (VN.ExportData.mk "" [] []
        [{ name := "M", description := "", chapter := -1, type := "Plot Point",
           impact := "High", related_arc := none, created_at := "" }] [] "").milestones.map
        (·.chapter) = [-1]
  ∧ generate_csv_summary (VN.ExportData.mk "" [] []
        [{ name := "M", description := "", chapter := -1, type := "Plot Point",
           impact := "High", related_arc := none, created_at := "" }] [] "") =
      "Metric,Count\nTotal Characters,0\nTotal Story Arcs,0\nTotal Milestones,1\nTotal Dialogue Scenes,0\nEstimated Chapters,0\nMain Characters,0\nSupporting Characters,0\n"
  ∧ pyMax ([-1] : List Int) = -1
  ∧ (-1 : Int) ≠ 0 := by
  refine ⟨rfl, ?_, rfl, by decide⟩
  rfl

/-- C6: `estimated_length` is the maximum milestone chapter when milestones
exist, otherwise the maximum arc `end_chapter` when arcs exist, otherwise 0
(the `Option.getD` chain over `List.max?` states exactly this fallback). -/
theorem claim6_estimated_length (characters : List Character)
    (story_arcs : List StoryArc) (milestones : List Milestone) :
    (analyze_story_structure characters story_arcs milestones).estimated_length =
      (milestones.map (·.chapter)).max?.getD
        ((story_arcs.map (·.end_chapter)).max?.getD 0) := by
  rcases milestones with _ | ⟨m, ms⟩
  · rcases story_arcs with _ | ⟨a, arcs⟩
    · simp [analyze_story_structure]
    · have hL : (analyze_story_structure characters (a :: arcs) []).estimated_length =
          pyMax ((a :: arcs).map (·.end_chapter)) := by
        simp [analyze_story_structure]
      rw [hL, show ((([] : List Milestone)).map (·.chapter)).max? = none from rfl,
        max?_eq_pyMax ((a :: arcs).map (·.end_chapter)) (by simp)]
      rfl
  · have hL : (analyze_story_structure characters story_arcs (m :: ms)).estimated_length =
        pyMax ((m :: ms).map (·.chapter)) := by
      simp [analyze_story_structure]
    rw [hL, max?_eq_pyMax ((m :: ms).map (·.chapter)) (by simp)]
    rfl

/-! ### Pacing-gap characterization -/

theorem gapMessages_eq_zip (l : List Int) :
    gapMessages l = ((l.zip l.tail).filter (fun p => decide (3 < p.2 - p.1))).map
      (fun p => "Large gap between chapters " ++ toString p.1 ++ " and " ++ toString p.2) := by
  induction l with
  | nil => rfl
  | cons a t ih =>
    cases t with
    | nil => rfl
    | cons b t2 =>
      by_cases hg : 3 < b - a
      · simp [gapMessages, hg, ih]
      · simp [gapMessages, hg, ih]

/-- C5: the pacing list contains one entry for each adjacent pair of the
ascending-sorted milestone chapters with difference strictly above 3 (a
filter over the zipped adjacent pairs), and on the concrete chapters
`[1, 2, 10]` it is exactly the single gap message for chapters 2 and 10,
while on `[1, 2, 3]` it is empty. -/
theorem claim5_pacing_gaps (characters : List Character)
    (story_arcs : List StoryArc) (milestones : List Milestone) :
    ((analyze_story_structure characters story_arcs milestones).pacing_analysis =
      List.map
        (fun p : Int × Int =>
          "Large gap between chapters " ++ toString p.1 ++ " and " ++ toString p.2)
        (List.filter (fun p : Int × Int => decide (3 < p.2 - p.1))
          ((pySortInts (milestones.map (·.chapter))).zip
            (pySortInts (milestones.map (·.chapter))).tail)))
  ∧ (analyze_story_structure [] []
      [{ name := "a", description := "", chapter := 10, type := "", impact := "Low",
         related_arc := none, created_at := "" },
       { name := "b", description := "", chapter := 1, type := "", impact := "Low",
         related_arc := none, created_at := "" },
       { name := "c", description := "", chapter := 2, type := "", impact := "Low",
         related_arc := none, created_at := "" }]).pacing_analysis =
      ["Large gap between chapters 2 and 10"]
  ∧ (analyze_story_structure [] []
      [{ name := "a", description := "", chapter := 1, type := "", impact := "Low",
         related_arc := none, created_at := "" },
       { name := "b", description := "", chapter := 2, type := "", impact := "Low",
         related_arc := none, created_at := "" },
       { name := "c", description := "", chapter := 3, type := "", impact := "Low",
         related_arc := none, created_at := "" }]).pacing_analysis = [] := by
  refine ⟨?_, by rfl, by rfl⟩
  rcases milestones with _ | ⟨m, ms⟩
  · simp [analyze_story_structure, pySortInts]
  · simp only [analyze_story_structure]
    rw [if_neg (List.cons_ne_nil m ms)]
    exact gapMessages_eq_zip _

/-- C2: the Markdown export renders the "Story Milestones" section from a
permutation of the input milestones sorted ascending (non-decreasing) by
chapter, emits the section only when the list is non-empty, and each entry
shows type, impact and description, with the related-arc line present only
when `related_arc` holds a (truthy) value. -/
theorem claim2_markdown_milestones (data : ExportData) :
    (pySortMilestones data.milestones).Perm data.milestones
  ∧ List.Sorted (fun a b => a.chapter ≤ b.chapter) (pySortMilestones data.milestones)
  ∧ generate_markdown_export data = String.intercalate "\n"
      (mdHeaderLines data ++ mdCharacterLines data.characters ++ mdArcLines data.story_arcs
        ++ mdMilestoneLines data.milestones ++ mdSceneLines data.dialogue_scenes)
  ∧ (mdMilestoneLines data.milestones = [] ↔ data.milestones = [])
  ∧ (∀ ms : List Milestone, ms ≠ [] →
      mdMilestoneLines ms =
        "\n## Story Milestones" :: (pySortMilestones ms).flatMap mdMilestoneEntry)
  ∧ (∀ m : Milestone,
      mdMilestoneEntry m =
        ["\n### Chapter " ++ toString m.chapter ++ ": " ++ m.name,
         "**Type:** " ++ m.type, "**Impact:** " ++ m.impact,
         "**Description:** " ++ m.description]
      ∨ ∃ s, m.related_arc = some s ∧ s ≠ "" ∧
          mdMilestoneEntry m =
            ["\n### Chapter " ++ toString m.chapter ++ ": " ++ m.name,
             "**Type:** " ++ m.type, "**Impact:** " ++ m.impact,
             "**Description:** " ++ m.description, "**Related Arc:** " ++ s]) := by
  refine ⟨List.perm_insertionSort milestoneLe data.milestones,
    List.sorted_insertionSort milestoneLe data.milestones, rfl, ?_, ?_, ?_⟩
  · constructor
    · intro h
      by_contra hne
      simp [mdMilestoneLines, hne] at h
    · intro h
      simp [mdMilestoneLines, h]
  · intro ms h
    simp [mdMilestoneLines, h]
  · intro m
    by_cases h : truthyStrOpt m.related_arc = true
    · right
      rcases hra : m.related_arc with _ | s
      · rw [hra] at h
        exact absurd h (by decide)
      · refine ⟨s, rfl, ?_, ?_⟩
        · rw [hra] at h
          simpa [truthyStrOpt] using h
        · simp [mdMilestoneEntry, truthyStrOpt, hra] at h ⊢
          simp [h]
    · left
      simp only [Bool.not_eq_true] at h
      simp [mdMilestoneEntry, h]

/-- C2 witness: on a concrete two-milestone list given in descending chapter
order, the section is rendered from the sorted permutation. -/
theorem claim2_markdown_milestones_instance :
    mdMilestoneLines
        [{ name := "late", description := "", chapter := 9, type := "", impact := "Low",
           related_arc := none, created_at := "" },
         { name := "early", description := "", chapter := 2, type := "", impact := "Low",
           related_arc := none, created_at := "" }] =
      "\n## Story Milestones" ::
        (pySortMilestones
          [{ name := "late", description := "", chapter := 9, type := "", impact := "Low",
             related_arc := none, created_at := "" },
           { name := "early", description := "", chapter := 2, type := "", impact := "Low",
             related_arc := none, created_at := "" }]).flatMap mdMilestoneEntry :=
  (claim2_markdown_milestones (VN.ExportData.mk "" [] [] [] [] "")).2.2.2.2.1
    [{ name := "late", description := "", chapter := 9, type := "", impact := "Low",
       related_arc := none, created_at := "" },
     { name := "early", description := "", chapter := 2, type := "", impact := "Low",
       related_arc := none, created_at := "" }] (by decide)

/-! ### Membership in the conditional warning blocks -/

theorem mem_double_ite {p q : Prop} [Decidable p] [Decidable q] (w x y : String) :
    (w ∈ (if p then [x] else if q then [y] else [])) ↔
      ((p ∧ w = x) ∨ (¬p ∧ q ∧ w = y)) := by
  split_ifs <;> simp_all

theorem mem_guard_ite {r p : Prop} [Decidable r] [Decidable p] (w x : String) :
    (w ∈ (if r then [] else if p then [x] else [])) ↔ (¬r ∧ p ∧ w = x) := by
  split_ifs <;> simp_all

theorem mem_guard_pair {r p q : Prop} [Decidable r] [Decidable p] [Decidable q]
    (w x y : String) :
    (w ∈ (if r then []
          else (if p then [x] else []) ++ (if q then [y] else []))) ↔
      (¬r ∧ ((p ∧ w = x) ∨ (q ∧ w = y))) := by
  split_ifs with h1 h2 h3 <;> simp_all

/-- C7: the main-character warnings and the milestone-impact warnings appear
exactly under the counting conditions of the source: no `"Main Character"`
role, more than 3 such roles, and (for non-empty milestone lists) more than
3 `"Critical"` impacts or no `"High"`/`"Critical"` impact at all. -/
theorem claim7_validate_warnings (characters : List Character)
    (story_arcs : List StoryArc) (milestones : List Milestone) :
    (mainCharWarning ∈ validate_story_structure characters story_arcs milestones ↔
      characters.countP (fun c => c.role == "Main Character") = 0)
  ∧ (manyMainWarning ∈ validate_story_structure characters story_arcs milestones ↔
      3 < characters.countP (fun c => c.role == "Main Character"))
  ∧ (criticalWarning ∈ validate_story_structure characters story_arcs milestones ↔
      (milestones ≠ [] ∧ 3 < (milestones.map (·.impact)).count "Critical"))
  ∧ (tensionWarning ∈ validate_story_structure characters story_arcs milestones ↔
      (milestones ≠ [] ∧ "High" ∉ milestones.map (·.impact) ∧
        "Critical" ∉ milestones.map (·.impact))) := by
  simp only [List.countP_eq_length_filter]
  refine ⟨?_, ?_, ?_, ?_⟩
  all_goals
    simp only [validate_story_structure, List.mem_append, mem_double_ite, mem_guard_ite,
      mem_guard_pair]
  all_goals
    simp [mainCharWarning, manyMainWarning, coverageWarning, criticalWarning,
      tensionWarning]
  all_goals try tauto
  all_goals try omega
  all_goals
    (intro h
     have hne : (characters.filter (fun c => c.role == "Main Character")) ≠ [] := by
       intro he
       rw [he] at h
       simp at h
     obtain ⟨c, hc⟩ := List.exists_mem_of_ne_nil _ hne
     have hm := List.mem_filter.1 hc
     exact ⟨c, hm.1, by simpa using hm.2⟩)

/-! ### The covered-chapter set as a bounded union -/

theorem coveredChapters_eq (story_arcs : List StoryArc) :
    coveredChapters story_arcs =
      story_arcs.toFinset.biUnion (fun a => Finset.Icc a.start_chapter a.end_chapter) := by
  have general : ∀ (l : List StoryArc) (s : Finset Int),
      l.foldl (fun acc arc => acc ∪ Finset.Icc arc.start_chapter arc.end_chapter) s =
        s ∪ l.toFinset.biUnion (fun a => Finset.Icc a.start_chapter a.end_chapter) := by
    intro l
    induction l with
    | nil => intro s; simp
    | cons a t ih =>
      intro s
      simp only [List.foldl_cons, List.toFinset_cons, Finset.biUnion_insert]
      rw [ih, Finset.union_assoc]
  simpa [coveredChapters] using general story_arcs ∅

/-- C8: for non-empty arc lists the coverage warning appears exactly when
the cardinality of the union of the inclusive chapter ranges over all arcs
is strictly below the maximum arc `end_chapter`; for the empty arc list the
warning never appears. -/
theorem claim8_arc_coverage (characters : List Character)
    (story_arcs : List StoryArc) (milestones : List Milestone) :
    coverageWarning ∈ validate_story_structure characters story_arcs milestones ↔
      (story_arcs ≠ [] ∧
        (((story_arcs.toFinset.biUnion
            (fun a => Finset.Icc a.start_chapter a.end_chapter)).card : Int)
          < (story_arcs.map (·.end_chapter)).max?.getD 0)) := by
  rcases story_arcs with _ | ⟨a, arcs⟩
  · simp only [validate_story_structure, List.mem_append, mem_double_ite, mem_guard_ite,
      mem_guard_pair]
    simp [mainCharWarning, manyMainWarning, coverageWarning, criticalWarning,
      tensionWarning]
  · rw [show ((a :: arcs).map (·.end_chapter)).max?.getD 0 =
      pyMax ((a :: arcs).map (·.end_chapter)) from by
        rw [max?_eq_pyMax ((a :: arcs).map (·.end_chapter)) (by simp)]; rfl]
    rw [← coveredChapters_eq]
    simp only [validate_story_structure, List.mem_append, mem_double_ite, mem_guard_ite,
      mem_guard_pair]
    simp [mainCharWarning, manyMainWarning, coverageWarning, criticalWarning,
      tensionWarning]

/-- C7 witness: with no characters the main-character warning appears, and
with one `"Low"`-impact milestone the tension warning appears. -/
theorem claim7_validate_warnings_instance :
    mainCharWarning ∈ validate_story_structure [] [] []
  ∧ tensionWarning ∈ validate_story_structure [] []
      [{ name := "m", description := "", chapter := 1, type := "", impact := "Low",
         related_arc := none, created_at := "" }] :=
  ⟨(claim7_validate_warnings [] [] []).1.mpr (by decide),
   (claim7_validate_warnings [] []
      [{ name := "m", description := "", chapter := 1, type := "", impact := "Low",
         related_arc := none, created_at := "" }]).2.2.2.mpr
     ⟨by decide, by decide, by decide⟩⟩

/-- C8 witness: a single arc covering only chapter 3 covers 1 chapter while
the maximum end chapter is 3, so the coverage warning appears. -/
theorem claim8_arc_coverage_instance :
    coverageWarning ∈ validate_story_structure []
      [{ name := "a", description := "", start_chapter := 3, end_chapter := 3,
         themes := "", characters := [], created_at := "" }] [] :=
  (claim8_arc_coverage []
    [{ name := "a", description := "", start_chapter := 3, end_chapter := 3,
       themes := "", characters := [], created_at := "" }] []).mpr
    ⟨by decide, by decide⟩

/-- C10 witness: two calls differing only in the character name and the
personality traits return the same options. -/
theorem claim10_dialogue_independent_instance :
    generate_dialogue_options "A" "x" "confident" =
      generate_dialogue_options "B" "x" "shy" :=
  (claim10_dialogue_independent "A" "B" "x" "confident" "shy").1

end VN
